import Mathlib

/-!
Verification of the provider resolution and resilience engine of the p-art
repository (`src/p_art.py`, `src/quota_tracker.py`, `src/constants.py`).

The Python code is shallowly embedded: dataclasses become structures, dicts
become association lists, `Optional[str]` becomes `Option String`, clock
readings (`time.time()`) and sleep durations become explicit rational
parameters, and the HTTP layer is abstracted as explicit attempt outcomes fed
to the retry loop.  Python truthiness is modelled exactly where the code
relies on it: `None` and the empty string are falsy, `0` is falsy, and a
`requests.Response` object is truthy iff its status code is < 400 (its
`__bool__` delegates to `Response.ok`).
-/

/-- Python truthiness of an `Optional[str]` value: `None` and `""` are falsy. -/
def truthyS : Option String → Bool
  | none => false
  | some s => !(s == "")

/-- The `ArtResult` dataclass (p_art.py lines 43-47): all fields default to `None`. -/
structure ArtResult where
  poster_url : Option String := none
  background_url : Option String := none
  source : Option String := none
deriving Repr, DecidableEq

/-- The empty `ArtResult()`. -/
def ArtResult.empty : ArtResult := {}

/-- One merge step of `PArt._process_item` (p_art.py lines 799-804): the
accumulated result takes the provider's poster when its own poster is falsy,
likewise for the background when backgrounds are included, and the source is
overwritten whenever the provider result has any truthy field. -/
def mergeStep (includeBackgrounds : Bool) (acc pr : ArtResult) : ArtResult :=
  let a1 := if truthyS acc.poster_url then acc
            else { acc with poster_url := pr.poster_url }
  let a2 := if includeBackgrounds && !(truthyS a1.background_url)
            then { a1 with background_url := pr.background_url } else a1
  if truthyS pr.poster_url || truthyS pr.background_url
  then { a2 with source := pr.source } else a2

/-- The provider loop of `PArt._process_item` (p_art.py lines 793-807) over the
results the consulted providers yield, in priority order, with the early-exit
check `result.poster_url and (not include_backgrounds or result.background_url)`
performed after each merge. -/
def runProviders (includeBackgrounds : Bool) : ArtResult → List ArtResult → ArtResult
  | acc, [] => acc
  | acc, pr :: rest =>
    let acc' := mergeStep includeBackgrounds acc pr
    if truthyS acc'.poster_url && (!includeBackgrounds || truthyS acc'.background_url)
    then acc'
    else runProviders includeBackgrounds acc' rest

/-- The prefix of provider results the loop of `_process_item` actually
consumes before the early exit breaks out (or the list ends). -/
def consumedResults (includeBackgrounds : Bool) : ArtResult → List ArtResult → List ArtResult
  | _, [] => []
  | acc, pr :: rest =>
    let acc' := mergeStep includeBackgrounds acc pr
    if truthyS acc'.poster_url && (!includeBackgrounds || truthyS acc'.background_url)
    then [pr]
    else pr :: consumedResults includeBackgrounds acc' rest

/-- First non-null entry of a list of optional values (the spec's
"first non-null wins"). -/
def firstSome {α : Type} : List (Option α) → Option α
  | [] => none
  | none :: rest => firstSome rest
  | some a :: _ => some a

/-- A provider result "contains any non-null field" (for source attribution). -/
def hasAnyField (r : ArtResult) : Bool :=
  r.poster_url.isSome || r.background_url.isSome

/-- Source of the most recent provider result that contributed any field,
`none` when no result in the list did. -/
def lastContribSource (rs : List ArtResult) : Option String :=
  match (rs.filter hasAnyField).getLast? with
  | some r => r.source
  | none => none

/-- Every URL field of the result is `none` or a non-empty string, stated as:
Python truthiness of the field coincides with being non-null.  This holds of
every result an actual provider adapter yields, since URLs are built by string
concatenation onto non-empty literal prefixes or filtered for truthiness. -/
def normalResult (r : ArtResult) : Prop :=
  truthyS r.poster_url = r.poster_url.isSome ∧
  truthyS r.background_url = r.background_url.isSome

instance (r : ArtResult) : Decidable (normalResult r) := by
  unfold normalResult; infer_instance

@[simp] theorem firstSome_nil {α : Type} : firstSome ([] : List (Option α)) = none := rfl

@[simp] theorem firstSome_cons_none {α : Type} (l : List (Option α)) :
    firstSome (none :: l) = firstSome l := rfl

@[simp] theorem firstSome_cons_some {α : Type} (a : α) (l : List (Option α)) :
    firstSome (some a :: l) = some a := rfl

theorem mergeStep_poster (b : Bool) (acc pr : ArtResult) :
    (mergeStep b acc pr).poster_url =
      if truthyS acc.poster_url then acc.poster_url else pr.poster_url := by
  unfold mergeStep
  by_cases h1 : truthyS acc.poster_url <;> simp [h1] <;> split <;> split <;> simp

theorem mergeStep_background (b : Bool) (acc pr : ArtResult) :
    (mergeStep b acc pr).background_url =
      if b && !(truthyS acc.background_url) then pr.background_url
      else acc.background_url := by
  unfold mergeStep
  by_cases h1 : truthyS acc.poster_url <;>
    by_cases h2 : b && !(truthyS acc.background_url) <;>
      simp [h1, h2] <;> split <;> simp

theorem mergeStep_source (b : Bool) (acc pr : ArtResult) :
    (mergeStep b acc pr).source =
      if truthyS pr.poster_url || truthyS pr.background_url then pr.source
      else acc.source := by
  unfold mergeStep
  by_cases h1 : truthyS acc.poster_url <;>
    by_cases h3 : truthyS pr.poster_url || truthyS pr.background_url <;>
      simp [h1, h3] <;> split <;> simp

theorem mergeStep_normal (b : Bool) (acc pr : ArtResult)
    (ha : normalResult acc) (hp : normalResult pr) :
    normalResult (mergeStep b acc pr) := by
  constructor
  · rw [mergeStep_poster]
    split
    · exact ha.1
    · exact hp.1
  · rw [mergeStep_background]
    split
    · exact hp.2
    · exact ha.2

theorem runProviders_cons (b : Bool) (acc pr : ArtResult) (rest : List ArtResult) :
    runProviders b acc (pr :: rest) =
      if truthyS (mergeStep b acc pr).poster_url
         && (!b || truthyS (mergeStep b acc pr).background_url)
      then mergeStep b acc pr
      else runProviders b (mergeStep b acc pr) rest := rfl

theorem consumedResults_cons (b : Bool) (acc pr : ArtResult) (rest : List ArtResult) :
    consumedResults b acc (pr :: rest) =
      if truthyS (mergeStep b acc pr).poster_url
         && (!b || truthyS (mergeStep b acc pr).background_url)
      then [pr]
      else pr :: consumedResults b (mergeStep b acc pr) rest := rfl

theorem runProviders_poster (rs : List ArtResult) :
    ∀ acc : ArtResult, normalResult acc → (∀ r ∈ rs, normalResult r) →
      (runProviders true acc rs).poster_url =
        if acc.poster_url.isSome then acc.poster_url
        else firstSome (rs.map ArtResult.poster_url) := by
  induction rs with
  | nil =>
    intro acc _ _
    cases h : acc.poster_url <;> simp [runProviders, h]
  | cons pr rest ih =>
    intro acc hacc hall
    have hpr : normalResult pr := hall pr (by simp)
    have hrest : ∀ r ∈ rest, normalResult r := fun r hr => hall r (by simp [hr])
    have hacc' : normalResult (mergeStep true acc pr) := mergeStep_normal _ _ _ hacc hpr
    rw [runProviders_cons]
    by_cases hbrk : (truthyS (mergeStep true acc pr).poster_url
        && (!true || truthyS (mergeStep true acc pr).background_url)) = true
    · rw [if_pos hbrk]
      have hp : truthyS (mergeStep true acc pr).poster_url = true := by
        simp at hbrk; exact hbrk.1
      rw [mergeStep_poster] at hp ⊢
      by_cases h1 : truthyS acc.poster_url
      · simp only [h1, if_true]
        rw [hacc.1] at h1
        simp [h1]
      · simp only [h1, if_false, Bool.false_eq_true] at hp ⊢
        rw [hacc.1] at h1
        simp only [Bool.not_eq_true, Option.not_isSome_iff_eq_none] at h1
        rw [hpr.1] at hp
        cases hpp : pr.poster_url with
        | none => rw [hpp] at hp; simp at hp
        | some s => simp [h1, hpp]
    · rw [if_neg hbrk]
      rw [ih (mergeStep true acc pr) hacc' hrest]
      rw [mergeStep_poster]
      by_cases h1 : truthyS acc.poster_url
      · simp only [h1, if_true]
        rw [hacc.1] at h1
        simp [h1]
      · simp only [h1, if_false, Bool.false_eq_true]
        rw [hacc.1] at h1
        simp only [Bool.not_eq_true, Option.not_isSome_iff_eq_none] at h1
        simp only [h1, Option.isSome_none, Bool.false_eq_true, if_false, List.map_cons]
        cases hpp : pr.poster_url with
        | none => simp
        | some s => simp

theorem runProviders_background (rs : List ArtResult) :
    ∀ acc : ArtResult, normalResult acc → (∀ r ∈ rs, normalResult r) →
      (runProviders true acc rs).background_url =
        if acc.background_url.isSome then acc.background_url
        else firstSome (rs.map ArtResult.background_url) := by
  induction rs with
  | nil =>
    intro acc _ _
    cases h : acc.background_url <;> simp [runProviders, h]
  | cons pr rest ih =>
    intro acc hacc hall
    have hpr : normalResult pr := hall pr (by simp)
    have hrest : ∀ r ∈ rest, normalResult r := fun r hr => hall r (by simp [hr])
    have hacc' : normalResult (mergeStep true acc pr) := mergeStep_normal _ _ _ hacc hpr
    rw [runProviders_cons]
    by_cases hbrk : (truthyS (mergeStep true acc pr).poster_url
        && (!true || truthyS (mergeStep true acc pr).background_url)) = true
    · rw [if_pos hbrk]
      have hb : truthyS (mergeStep true acc pr).background_url = true := by
        simp at hbrk; exact hbrk.2
      rw [mergeStep_background] at hb ⊢
      by_cases h2 : truthyS acc.background_url
      · simp only [h2, Bool.not_true, Bool.and_false, Bool.false_eq_true, if_false]
        rw [hacc.2] at h2
        simp [h2]
      · simp only [h2, Bool.not_false, Bool.and_true, Bool.true_and, if_true,
          Bool.false_eq_true] at hb ⊢
        rw [hacc.2] at h2
        simp only [Bool.not_eq_true, Option.not_isSome_iff_eq_none] at h2
        rw [hpr.2] at hb
        cases hpp : pr.background_url with
        | none => rw [hpp] at hb; simp at hb
        | some s => simp [h2, hpp]
    · rw [if_neg hbrk]
      rw [ih (mergeStep true acc pr) hacc' hrest]
      rw [mergeStep_background]
      by_cases h2 : truthyS acc.background_url
      · simp only [h2, Bool.not_true, Bool.and_false, Bool.false_eq_true, if_false]
        rw [hacc.2] at h2
        simp [h2]
      · simp only [h2, Bool.not_false, Bool.and_true, Bool.true_and, if_true]
        rw [hacc.2] at h2
        simp only [Bool.not_eq_true, Option.not_isSome_iff_eq_none] at h2
        simp only [h2, Option.isSome_none, Bool.false_eq_true, if_false, List.map_cons]
        cases hpp : pr.background_url with
        | none => simp
        | some s => simp

theorem getLast?_cons_eq {α : Type} (a : α) (l : List α) :
    (a :: l).getLast? = some ((l.getLast?).getD a) := by
  induction l generalizing a with
  | nil => rfl
  | cons b t ih =>
    rw [List.getLast?_cons_cons, ih b]
    simp

theorem runProviders_source (rs : List ArtResult) :
    ∀ acc : ArtResult, normalResult acc → (∀ r ∈ rs, normalResult r) →
      (runProviders true acc rs).source =
        (match ((consumedResults true acc rs).filter hasAnyField).getLast? with
         | some r => r.source
         | none => acc.source) := by
  induction rs with
  | nil => intro acc _ _; simp [runProviders, consumedResults]
  | cons pr rest ih =>
    intro acc hacc hall
    have hpr : normalResult pr := hall pr (by simp)
    have hrest : ∀ r ∈ rest, normalResult r := fun r hr => hall r (by simp [hr])
    have hacc' : normalResult (mergeStep true acc pr) := mergeStep_normal _ _ _ hacc hpr
    have hany : (truthyS pr.poster_url || truthyS pr.background_url) = hasAnyField pr := by
      rw [hpr.1, hpr.2]; rfl
    rw [runProviders_cons, consumedResults_cons]
    by_cases hbrk : (truthyS (mergeStep true acc pr).poster_url
        && (!true || truthyS (mergeStep true acc pr).background_url)) = true
    · rw [if_pos hbrk, if_pos hbrk, mergeStep_source]
      by_cases hc : hasAnyField pr = true
      · simp [List.filter_cons, hc, hany]
      · simp [List.filter_cons, hc, hany]
    · rw [if_neg hbrk, if_neg hbrk]
      rw [ih _ hacc' hrest, mergeStep_source]
      by_cases hc : hasAnyField pr = true
      · rw [List.filter_cons]
        simp only [hc, if_true]
        rw [getLast?_cons_eq]
        cases hl : ((consumedResults true (mergeStep true acc pr) rest).filter
            hasAnyField).getLast? with
        | some r => simp [hl]
        | none => simp [hl, hany, hc]
      · rw [List.filter_cons]
        simp only [hc, Bool.false_eq_true, if_false]
        cases hl : ((consumedResults true (mergeStep true acc pr) rest).filter
            hasAnyField).getLast? with
        | some r => simp [hl]
        | none => simp [hl, hany, hc]

/-- Claim C1: for every orchestrator run over the results the consulted providers
yield in priority order, with background resolution enabled, the accumulated
result takes per field the first non-null poster and the first non-null
background any provider yields, and its `source` is the source of the most
recent provider (among those the loop consulted) whose result contained any
non-null field; in particular provider A yielding `{poster:null, background:X}`
followed by provider B yielding `{poster:Y, background:Z}` produces the merged
result `{poster:Y, background:X}` attributed to B. -/
theorem C1_orchestrator_merge :
    (∀ rs : List ArtResult, (∀ r ∈ rs, normalResult r) →
      (runProviders true ArtResult.empty rs).poster_url
          = firstSome (rs.map ArtResult.poster_url)
      ∧ (runProviders true ArtResult.empty rs).background_url
          = firstSome (rs.map ArtResult.background_url)
      ∧ (runProviders true ArtResult.empty rs).source
          = lastContribSource (consumedResults true ArtResult.empty rs))
    ∧ runProviders true ArtResult.empty
        [{ poster_url := none, background_url := some "X", source := some "A" },
         { poster_url := some "Y", background_url := some "Z", source := some "B" }]
      = { poster_url := some "Y", background_url := some "X", source := some "B" } := by
  constructor
  · intro rs h
    have hN : normalResult ArtResult.empty := ⟨rfl, rfl⟩
    refine ⟨?_, ?_, ?_⟩
    · rw [runProviders_poster rs ArtResult.empty hN h]
      simp [ArtResult.empty]
    · rw [runProviders_background rs ArtResult.empty hN h]
      simp [ArtResult.empty]
    · rw [runProviders_source rs ArtResult.empty hN h]
      unfold lastContribSource
      cases hl : ((consumedResults true ArtResult.empty rs).filter hasAnyField).getLast? with
      | some r => simp [hl]
      | none => simp [hl, ArtResult.empty]
  · decide

/-- Witness for C1: the characterization instantiated at the claim's two
concrete provider results, all hypotheses discharged by evaluation. -/
theorem C1_orchestrator_merge_witness :
    (runProviders true ArtResult.empty
        [{ poster_url := none, background_url := some "X", source := some "A" },
         { poster_url := some "Y", background_url := some "Z", source := some "B" }]).poster_url
      = firstSome ([{ poster_url := none, background_url := some "X", source := some "A" },
         { poster_url := some "Y", background_url := some "Z", source := some "B" }].map
           ArtResult.poster_url)
    ∧ (runProviders true ArtResult.empty
        [{ poster_url := none, background_url := some "X", source := some "A" },
         { poster_url := some "Y", background_url := some "Z", source := some "B" }]).background_url
      = firstSome ([{ poster_url := none, background_url := some "X", source := some "A" },
         { poster_url := some "Y", background_url := some "Z", source := some "B" }].map
           ArtResult.background_url)
    ∧ (runProviders true ArtResult.empty
        [{ poster_url := none, background_url := some "X", source := some "A" },
         { poster_url := some "Y", background_url := some "Z", source := some "B" }]).source
      = lastContribSource (consumedResults true ArtResult.empty
        [{ poster_url := none, background_url := some "X", source := some "A" },
         { poster_url := some "Y", background_url := some "Z", source := some "B" }]) :=
  C1_orchestrator_merge.1
    [{ poster_url := none, background_url := some "X", source := some "A" },
     { poster_url := some "Y", background_url := some "Z", source := some "B" }]
    (by decide)

/-- A width value as it appears in a candidate dict: a Python int or str. -/
inductive WVal where
  | i (n : Int)
  | s (st : String)
deriving Repr, DecidableEq

/-- Python truthiness of an optional int-or-string value: `None`, `0` and the
empty string are falsy. -/
def truthyW : Option WVal → Bool
  | none => false
  | some (.i n) => !(n == 0)
  | some (.s st) => !(st == "")

/-- An image candidate dict as consumed by `PArt._pick_best_image`
(p_art.py lines 538-554): any of the width-ish and url-ish keys may be
present. -/
structure Img where
  width : Option WVal := none
  w : Option WVal := none
  size : Option WVal := none
  url : Option String := none
  source : Option String := none
  link : Option String := none
  image : Option String := none
deriving Repr, DecidableEq

/-- The `img.get("width") or img.get("w") or img.get("size") or 0`
(first truthy value, else the final literal `0`). -/
def rawWidth (img : Img) : WVal :=
  if truthyW img.width then img.width.getD (.i 0)
  else if truthyW img.w then img.w.getD (.i 0)
  else if truthyW img.size then img.size.getD (.i 0)
  else .i 0

/-- The numeric width after the `isinstance(w, str)` branch: a string width is
parsed with `int(...)`, defaulting to `0` on parse failure (`ValueError`). -/
def effWidth (img : Img) : Int :=
  match rawWidth img with
  | .i n => n
  | .s st => (st.toInt?).getD 0

/-- The `img.get("url") or img.get("source") or img.get("link") or img.get("image")`,
followed by `if not url: continue` — so a candidate whose url-ish fields are
all falsy is reported as having no URL. -/
def effUrl (img : Img) : Option String :=
  if truthyS img.url then img.url
  else if truthyS img.source then img.source
  else if truthyS img.link then img.link
  else if truthyS img.image then img.image
  else none

/-- The loop of `PArt._pick_best_image`: accumulator `best`/`best_w`, a
candidate replaces the accumulator when `w >= min_width and w > best_w`. -/
def pickBestAux (minW : Int) : List Img → Option String → Int → Option String
  | [], best, _ => best
  | img :: rest, best, bestW =>
    match effUrl img with
    | none => pickBestAux minW rest best bestW
    | some u =>
      if minW ≤ effWidth img ∧ bestW < effWidth img
      then pickBestAux minW rest (some u) (effWidth img)
      else pickBestAux minW rest best bestW

/-- The `PArt._pick_best_image(images, min_width)`: `best = None`, `best_w = 0`. -/
def pickBestImage (imgs : List Img) (minW : Int) : Option String :=
  pickBestAux minW imgs none 0

/-- A candidate qualifying in the sense of the claim's words: it has a URL and
its width is at least `min_width`. -/
def qualifiesClaim (minW : Int) (img : Img) : Bool :=
  (effUrl img).isSome && decide (minW ≤ effWidth img)

/-- The strict-max accumulator of the selection specs. -/
def pickMax (b im : Img) : Img := if effWidth b < effWidth im then im else b

/-- The selection the claim describes: among qualifying candidates, the URL of
the one with the strictly greatest width, the first-seen winning ties; `none`
when no candidate qualifies. -/
def pickBestClaimSpec (imgs : List Img) (minW : Int) : Option String :=
  match imgs.filter (qualifiesClaim minW) with
  | [] => none
  | q :: qs => effUrl (qs.foldl pickMax q)

/-- Qualification as the code actually enforces it: additionally the width must
exceed the initial `best_w = 0`. -/
def qualAmended (minW : Int) (img : Img) : Bool :=
  (effUrl img).isSome && decide (minW ≤ effWidth img) && decide ((0:Int) < effWidth img)

/-- The amended selection: like the claim's, but a candidate also needs width
strictly greater than `0` to qualify. -/
def pickBestAmendedSpec (imgs : List Img) (minW : Int) : Option String :=
  match imgs.filter (qualAmended minW) with
  | [] => none
  | q :: qs => effUrl (qs.foldl pickMax q)

theorem effWidth_le_foldl_pickMax (l : List Img) :
    ∀ q : Img, effWidth q ≤ effWidth (l.foldl pickMax q) := by
  induction l with
  | nil => intro q; exact le_refl _
  | cons e t ih =>
    intro q
    have h1 : effWidth q ≤ effWidth (pickMax q e) := by
      unfold pickMax; split
      · omega
      · exact le_refl _
    exact le_trans h1 (ih (pickMax q e))

theorem foldl_pickMax_mem (l : List Img) :
    ∀ q : Img, l.foldl pickMax q ∈ q :: l := by
  induction l with
  | nil => intro q; simp
  | cons e t ih =>
    intro q
    have hm := ih (pickMax q e)
    have hpm : pickMax q e = q ∨ pickMax q e = e := by
      unfold pickMax; split
      · right; rfl
      · left; rfl
    simp only [List.foldl_cons]
    rcases List.mem_cons.mp hm with h | h
    · rw [h]
      rcases hpm with h2 | h2 <;> rw [h2] <;> simp
    · simp only [List.mem_cons]
      tauto

/-- The qualification test relative to a running `best_w` bound. -/
def candPred (minW bound : Int) (im : Img) : Bool :=
  (effUrl im).isSome && decide (minW ≤ effWidth im) && decide (bound < effWidth im)

theorem foldl_pickMax_filter_shift (rest : List Img) :
    ∀ (q : Img) (minW b1 b2 : Int), b1 ≤ b2 → b2 ≤ effWidth q →
      (rest.filter (candPred minW b1)).foldl pickMax q
        = (rest.filter (candPred minW b2)).foldl pickMax q := by
  induction rest with
  | nil => intros; rfl
  | cons e t ih =>
    intro q minW b1 b2 h12 h2q
    by_cases he2 : candPred minW b2 e = true
    · have he1 : candPred minW b1 e = true := by
        simp only [candPred, Bool.and_eq_true, decide_eq_true_eq] at he2 ⊢
        exact ⟨he2.1, lt_of_le_of_lt h12 he2.2⟩
      rw [List.filter_cons, List.filter_cons]
      simp only [he1, he2, if_true]
      simp only [List.foldl_cons]
      apply ih (pickMax q e) minW b1 b2 h12
      unfold pickMax
      split
      · have hb2 : b2 < effWidth e := by
          simp only [candPred, Bool.and_eq_true, decide_eq_true_eq] at he2
          exact he2.2
        omega
      · exact h2q
    · by_cases he1 : candPred minW b1 e = true
      · have hwe : effWidth e ≤ b2 := by
          by_contra hc
          push_neg at hc
          apply he2
          simp only [candPred, Bool.and_eq_true, decide_eq_true_eq] at he1 ⊢
          exact ⟨he1.1, hc⟩
        rw [List.filter_cons, List.filter_cons]
        simp only [he1, if_true, he2, Bool.false_eq_true, if_false]
        simp only [List.foldl_cons]
        have hq : pickMax q e = q := by
          unfold pickMax
          rw [if_neg (by omega)]
        rw [hq]
        exact ih q minW b1 b2 h12 h2q
      · rw [List.filter_cons, List.filter_cons]
        simp only [he1, he2, Bool.false_eq_true, if_false]
        exact ih q minW b1 b2 h12 h2q

theorem pickBestAux_cons (minW : Int) (img : Img) (rest : List Img)
    (best : Option String) (bound : Int) :
    pickBestAux minW (img :: rest) best bound =
      match effUrl img with
      | none => pickBestAux minW rest best bound
      | some u =>
          if minW ≤ effWidth img ∧ bound < effWidth img
          then pickBestAux minW rest (some u) (effWidth img)
          else pickBestAux minW rest best bound := rfl

theorem pickBestAux_eq (l : List Img) :
    ∀ (minW : Int) (best : Option String) (bound : Int),
      pickBestAux minW l best bound =
        (match l.filter (candPred minW bound) with
         | [] => best
         | q :: qs => effUrl (qs.foldl pickMax q)) := by
  induction l with
  | nil => intros; rfl
  | cons img rest ih =>
    intro minW best bound
    rw [pickBestAux_cons]
    cases hu : effUrl img with
    | none =>
      have hpred : candPred minW bound img = false := by
        simp [candPred, hu]
      rw [ih]
      simp [List.filter_cons, hpred]
    | some u =>
      dsimp only
      by_cases hc : minW ≤ effWidth img ∧ bound < effWidth img
      · rw [if_pos hc, ih]
        have hpred : candPred minW bound img = true := by
          simp only [candPred, Bool.and_eq_true, decide_eq_true_eq, hu, Option.isSome_some]
          exact ⟨⟨trivial, hc.1⟩, hc.2⟩
        rw [List.filter_cons]
        simp only [hpred, if_true]
        rw [foldl_pickMax_filter_shift rest img minW bound (effWidth img)
          (le_of_lt hc.2) (le_refl _)]
        cases hf : rest.filter (candPred minW (effWidth img)) with
        | nil => simp [hf, hu]
        | cons q qs =>
          have hq : candPred minW (effWidth img) q = true := by
            have hmem : q ∈ rest.filter (candPred minW (effWidth img)) := by
              rw [hf]; simp
            exact (List.mem_filter.mp hmem).2
          have hlt : effWidth img < effWidth q := by
            simp only [candPred, Bool.and_eq_true, decide_eq_true_eq] at hq
            exact hq.2
          simp only [hf, List.foldl_cons]
          have hqq : pickMax img q = q := by
            unfold pickMax; rw [if_pos hlt]
          rw [hqq]
      · rw [if_neg hc, ih]
        have hpred : candPred minW bound img = false := by
          rw [Bool.eq_false_iff]
          intro habs
          apply hc
          simp only [candPred, Bool.and_eq_true, decide_eq_true_eq] at habs
          exact ⟨habs.1.2, habs.2⟩
        simp [List.filter_cons, hpred]

/-- Claim C2 counterexample: a candidate with a URL and width `0` qualifies in
the claim's sense for `min_width = 0` and is the unique greatest-width
qualifier, yet `_pick_best_image` returns `None` for it, because the
accumulator starts with `best_w = 0` and only strictly larger widths replace
it.  So "returns none exactly when no candidate qualifies" is false as
stated. -/
theorem C2_counterexample :
    qualifiesClaim 0 { width := some (.i 0), url := some "a" } = true
    ∧ pickBestClaimSpec [{ width := some (.i 0), url := some "a" }] 0 = some "a"
    ∧ pickBestImage [{ width := some (.i 0), url := some "a" }] 0 = none := by
  refine ⟨by decide, by decide, by decide⟩

/-- Claim C2 amended: `_pick_best_image` returns the URL of the first-seen
candidate with the strictly greatest width among candidates that have a
(truthy) URL, width at least `min_width` **and width strictly greater than
zero**; it returns `none` exactly when no candidate qualifies in that amended
sense.  The claim's concrete example is unaffected:
`pick_best([{w:500,url:"a"},{w:700,url:"b"},{w:800,url:null}], 600) = "b"`. -/
theorem C2_pick_best_amended :
    (∀ (imgs : List Img) (minW : Int),
        pickBestImage imgs minW = pickBestAmendedSpec imgs minW)
    ∧ (∀ (imgs : List Img) (minW : Int),
        pickBestImage imgs minW = none ↔ imgs.filter (qualAmended minW) = [])
    ∧ pickBestImage
        [{ w := some (.i 500), url := some "a" },
         { w := some (.i 700), url := some "b" },
         { w := some (.i 800), url := none }] 600 = some "b" := by
  have key : ∀ (imgs : List Img) (minW : Int),
      pickBestImage imgs minW = pickBestAmendedSpec imgs minW := by
    intro imgs minW
    rw [pickBestImage, pickBestAux_eq]
    unfold pickBestAmendedSpec
    have hpq : candPred minW 0 = qualAmended minW := rfl
    rw [hpq]
  refine ⟨key, ?_, by decide⟩
  intro imgs minW
  rw [key]
  unfold pickBestAmendedSpec
  cases hf : imgs.filter (qualAmended minW) with
  | nil => simp
  | cons q qs =>
    simp only [List.ne_nil_of_mem]
    constructor
    · intro habs
      have hmem : qs.foldl pickMax q ∈ q :: qs := foldl_pickMax_mem qs q
      have hmem2 : qs.foldl pickMax q ∈ imgs.filter (qualAmended minW) := by
        rw [hf]; exact hmem
      have hqual := (List.mem_filter.mp hmem2).2
      simp only [qualAmended, Bool.and_eq_true] at hqual
      rw [habs] at hqual
      simp at hqual
    · intro habs
      simp at habs

/-- Witness for C2's amended theorem: the general equality instantiated at the
claim's example input. -/
theorem C2_pick_best_amended_witness :
    pickBestImage
        [{ w := some (.i 500), url := some "a" },
         { w := some (.i 700), url := some "b" },
         { w := some (.i 800), url := none }] 600
      = pickBestAmendedSpec
        [{ w := some (.i 500), url := some "a" },
         { w := some (.i 700), url := some "b" },
         { w := some (.i 800), url := none }] 600 :=
  C2_pick_best_amended.1 _ 600

/-- The `PArt._provider_cooldowns` dict: provider name to
`(cooldown_until, reason)`. -/
abbrev CooldownMap := List (String × ℚ × Option String)

/-- Dict lookup. -/
def cdLookup (cds : CooldownMap) (p : String) : Option (ℚ × Option String) :=
  match cds.find? (fun e => e.1 == p) with
  | some e => some e.2
  | none => none

/-- Dict assignment `self._provider_cooldowns[provider] = value`. -/
def cdUpdate : CooldownMap → String → ℚ × Option String → CooldownMap
  | [], p, v => [(p, v)]
  | e :: rest, p, v => if e.1 == p then (p, v) :: rest else e :: cdUpdate rest p v

/-- Dict removal `self._provider_cooldowns.pop(provider, None)`. -/
def cdRemove : CooldownMap → String → CooldownMap
  | [], _ => []
  | e :: rest, p => if e.1 == p then rest else e :: cdRemove rest p

/-- The `PArt._set_provider_cooldown` (p_art.py lines 420-431): ignore non-positive
durations, compute `until = now + seconds`, and keep the existing entry when it
already extends at least as far. -/
def set_provider_cooldown (cds : CooldownMap) (provider : String) (seconds : ℚ)
    (reason : Option String) (now : ℚ) : CooldownMap :=
  if seconds ≤ 0 then cds
  else
    let cooldownUntil := now + seconds
    match cdLookup cds provider with
    | some (u, _) =>
        if cooldownUntil ≤ u then cds else cdUpdate cds provider (cooldownUntil, reason)
    | none => cdUpdate cds provider (cooldownUntil, reason)

/-- The `PArt._provider_on_cooldown` (p_art.py lines 433-443): returns
`(on_cooldown, reason, remaining)` and the (possibly pruned) cooldown dict;
an entry whose remaining time is `<= 0` is popped and reported as off
cooldown. -/
def provider_on_cooldown (cds : CooldownMap) (provider : String) (now : ℚ) :
    (Bool × Option String × ℚ) × CooldownMap :=
  match cdLookup cds provider with
  | none => ((false, none, 0), cds)
  | some (u, reason) =>
    let remaining := u - now
    if remaining ≤ 0 then ((false, none, 0), cdRemove cds provider)
    else ((true, reason, max 0 remaining), cds)

/-- One cooldown registration: the arguments of a `_set_provider_cooldown`
call together with the clock value `time.time()` it observes. -/
structure CooldownOp where
  provider : String
  seconds : ℚ
  reason : Option String
  now : ℚ

/-- A sequence of cooldown registrations applied in order. -/
def applyCooldownOps (cds : CooldownMap) (ops : List CooldownOp) : CooldownMap :=
  ops.foldl
    (fun c op => set_provider_cooldown c op.provider op.seconds op.reason op.now) cds

theorem cdLookup_update_self (cds : CooldownMap) (p : String) (v : ℚ × Option String) :
    cdLookup (cdUpdate cds p v) p = some v := by
  induction cds with
  | nil => simp [cdUpdate, cdLookup, List.find?]
  | cons e rest ih =>
    by_cases he : e.1 == p
    · simp [cdUpdate, he, cdLookup, List.find?]
    · simp only [cdUpdate, he, Bool.false_eq_true, if_false]
      simpa [cdLookup, List.find?, he] using ih

theorem cdLookup_update_other (cds : CooldownMap) (p q : String)
    (v : ℚ × Option String) (hqp : q ≠ p) :
    cdLookup (cdUpdate cds p v) q = cdLookup cds q := by
  induction cds with
  | nil =>
    simp only [cdUpdate, cdLookup, List.find?]
    have : ((p, v).1 == q) = false := by
      simp only [beq_eq_false_iff_ne, ne_eq]
      exact fun h => hqp h.symm
    simp [this]
  | cons e rest ih =>
    by_cases he : e.1 == p
    · have hep : e.1 = p := by simpa using he
      have heq : (e.1 == q) = false := by
        simp only [beq_eq_false_iff_ne, ne_eq, hep]
        exact fun h => hqp h.symm
      have hpq : ((p, v).1 == q) = false := by
        simp only [beq_eq_false_iff_ne, ne_eq]
        exact fun h => hqp h.symm
      simp [cdUpdate, he, cdLookup, List.find?, hpq, heq, hep]
    · simp only [cdUpdate, he, Bool.false_eq_true, if_false]
      by_cases heq : e.1 == q
      · simp [cdLookup, List.find?, heq]
      · simp only [cdLookup, List.find?, heq]
        exact ih

theorem set_provider_cooldown_mono (cds : CooldownMap) (p : String) (s : ℚ)
    (reason : Option String) (now : ℚ) (u : ℚ) (r : Option String)
    (h : cdLookup cds p = some (u, r)) :
    ∃ u2 r2, cdLookup (set_provider_cooldown cds p s reason now) p = some (u2, r2)
      ∧ u ≤ u2 := by
  unfold set_provider_cooldown
  by_cases hs : s ≤ 0
  · exact ⟨u, r, by simp [hs, h], le_refl u⟩
  · simp only [hs, if_false]
    rw [h]
    by_cases hle : now + s ≤ u
    · exact ⟨u, r, by simp [hle, h], le_refl u⟩
    · refine ⟨now + s, reason, ?_, by linarith⟩
      simp only [hle, if_false]
      exact cdLookup_update_self cds p _

theorem set_provider_cooldown_other (cds : CooldownMap) (p q : String) (s : ℚ)
    (reason : Option String) (now : ℚ) (hqp : q ≠ p) :
    cdLookup (set_provider_cooldown cds p s reason now) q = cdLookup cds q := by
  unfold set_provider_cooldown
  by_cases hs : s ≤ 0
  · simp [hs]
  · simp only [hs, if_false]
    cases hl : cdLookup cds p with
    | none => exact cdLookup_update_other cds p q _ hqp
    | some ur =>
      obtain ⟨u, r⟩ := ur
      by_cases hle : now + s ≤ u
      · simp [hle]
      · simp only [hle, if_false]
        exact cdLookup_update_other cds p q _ hqp

theorem applyCooldownOps_mono (ops : List CooldownOp) :
    ∀ (cds : CooldownMap) (p : String) (u : ℚ) (r : Option String),
      cdLookup cds p = some (u, r) →
        ∃ u2 r2, cdLookup (applyCooldownOps cds ops) p = some (u2, r2) ∧ u ≤ u2 := by
  induction ops with
  | nil => intro cds p u r h; exact ⟨u, r, h, le_refl u⟩
  | cons op rest ih =>
    intro cds p u r h
    by_cases hp : p = op.provider
    · subst hp
      obtain ⟨u2, r2, h2, hle⟩ :=
        set_provider_cooldown_mono cds op.provider op.seconds op.reason op.now u r h
      obtain ⟨u3, r3, h3, hle3⟩ := ih _ op.provider u2 r2 h2
      exact ⟨u3, r3, h3, le_trans hle hle3⟩
    · have hother := set_provider_cooldown_other cds op.provider p op.seconds
        op.reason op.now hp
      obtain ⟨u3, r3, h3, hle3⟩ := ih
        (set_provider_cooldown cds op.provider op.seconds op.reason op.now) p u r
        (by rw [hother]; exact h)
      exact ⟨u3, r3, h3, hle3⟩

/-- Claim C6: `_set_provider_cooldown` computes `until = now + duration`, is a
no-op whenever the existing cooldown for that provider already extends at
least as far, and consequently — over any sequence of registrations — the
stored `until` timestamp of a provider never decreases. -/
theorem C6_cooldown_never_shrinks :
    (∀ (cds : CooldownMap) (p : String) (s : ℚ) (reason : Option String) (now : ℚ),
        0 < s →
        (cdLookup cds p = none ∨ (∃ u r, cdLookup cds p = some (u, r) ∧ u < now + s)) →
        cdLookup (set_provider_cooldown cds p s reason now) p = some (now + s, reason))
    ∧ (∀ (cds : CooldownMap) (p : String) (s : ℚ) (reason : Option String) (now : ℚ)
         (u : ℚ) (r : Option String),
        cdLookup cds p = some (u, r) → now + s ≤ u →
        set_provider_cooldown cds p s reason now = cds)
    ∧ (∀ (cds : CooldownMap) (ops : List CooldownOp) (p : String) (u : ℚ)
         (r : Option String),
        cdLookup cds p = some (u, r) →
          ∃ u2 r2, cdLookup (applyCooldownOps cds ops) p = some (u2, r2) ∧ u ≤ u2) := by
  refine ⟨?_, ?_, ?_⟩
  · intro cds p s reason now hs hcase
    unfold set_provider_cooldown
    simp only [not_le.mpr hs, if_false]
    rcases hcase with hnone | ⟨u, r, hsome, hlt⟩
    · rw [hnone]
      exact cdLookup_update_self cds p _
    · rw [hsome]
      simp only [not_le.mpr hlt, if_false]
      exact cdLookup_update_self cds p _
  · intro cds p s reason now u r h hle
    unfold set_provider_cooldown
    by_cases hs : s ≤ 0
    · simp [hs]
    · simp only [hs, if_false]
      rw [h]
      simp [hle]
  · intro cds ops p u r h
    exact applyCooldownOps_mono ops cds p u r h

/-- Witness for C6: a fresh registration stores `now + duration`; a shorter
re-registration is a no-op; a sequence of registrations never lowers the
stored timestamp. -/
theorem C6_cooldown_never_shrinks_witness :
    cdLookup (set_provider_cooldown [] "tmdb" 1800 (some "rate limited") 1000) "tmdb"
      = some (2800, some "rate limited")
    ∧ set_provider_cooldown [("tmdb", (2800, some "rate limited"))] "tmdb" 60 none 1001
      = [("tmdb", (2800, some "rate limited"))]
    ∧ ∃ u2 r2,
        cdLookup
          (applyCooldownOps [("tmdb", (2800, some "rate limited"))]
            [⟨"tmdb", 60, none, 1001⟩]) "tmdb" = some (u2, r2) ∧ (2800:ℚ) ≤ u2 := by
  refine ⟨?_, ?_, ?_⟩
  · have h0 := C6_cooldown_never_shrinks.1 [] "tmdb" 1800 (some "rate limited") 1000
      (by norm_num) (Or.inl rfl)
    rw [show (1000:ℚ) + 1800 = 2800 from by norm_num] at h0
    exact h0
  · exact C6_cooldown_never_shrinks.2.1 [("tmdb", (2800, some "rate limited"))]
      "tmdb" 60 none 1001 2800 (some "rate limited") rfl (by norm_num)
  · exact C6_cooldown_never_shrinks.2.2 [("tmdb", (2800, some "rate limited"))]
      [⟨"tmdb", 60, none, 1001⟩] "tmdb" 2800 (some "rate limited") rfl

/-- Python `max` on machine integers. -/
def imax (a b : Int) : Int := if a ≤ b then b else a

/-- Python `min` on numbers (here rationals). -/
def qmin (a b : ℚ) : ℚ := if a ≤ b then a else b

/-- The `2 ** attempt` as a rational. -/
def pow2 : Nat → ℚ
  | 0 => 1
  | n + 1 => 2 * pow2 n

/-- An HTTP response as seen by `PArt._safe_get`.  `errorDetail` abstracts the
error-message extraction of p_art.py lines 459-476 (`status_message`, `status`,
`message`, `Error`, `error`, else the trimmed body text); the claims only
depend on the extracted string. -/
structure Response where
  status : Nat
  retryAfter : Option String := none
  errorDetail : String := ""
deriving Repr, DecidableEq

/-- Python truthiness of a `requests.Response`: `__bool__` delegates to
`Response.ok`, which is true exactly when `status_code < 400`. -/
def truthyResp (r : Response) : Bool := r.status < 400

/-- The `error_detail` as the code leaves it: the extraction only runs under
`if r:`, so a falsy (status >= 400) response leaves `error_detail = ""`. -/
def error_detail (r : Response) : String :=
  if truthyResp r then r.errorDetail else ""

/-- The outcome of one `self.session.get(...)` call: a response, or a
`requests.RequestException` (network error / timeout). -/
inductive Outcome where
  | resp (r : Response)
  | exc
deriving Repr, DecidableEq

/-- Python substring test `pat in s` (for non-empty `pat`). -/
def strContains (s pat : String) : Bool := decide (2 ≤ (s.splitOn pat).length)

/-- The `str.lower()`. -/
def toLowerStr (s : String) : String := s.map Char.toLower

/-- The rate-limit body pattern of p_art.py line 481:
`"limit" in lower and ("rate" in lower or "request" in lower)`. -/
def isRateLimitDetail (detail : String) : Bool :=
  let lower := toLowerStr detail
  strContains lower "limit" && (strContains lower "rate" || strContains lower "request")

/-- The `int(r.headers.get("Retry-After", retry_after_hint))` with the default
hint of 30 minutes; a missing header yields the integer default, an
unparseable header raises `ValueError` which leaves the default in place. -/
def retryAfterHint (r : Response) : Int :=
  match r.retryAfter with
  | none => 1800
  | some s =>
    match s.toInt? with
    | some v => v
    | none => 1800

/-- The transient-path `retry_after`: parsed only under
`if r and r.status_code in (429, 500, 502, 503, 504)` — note the `if r`
truthiness guard, which is false for every status >= 400 — else `0`. -/
def transientRetryAfter (r : Response) : Int :=
  if truthyResp r && (r.status == 429 || r.status == 500 || r.status == 502
      || r.status == 503 || r.status == 504)
  then ((r.retryAfter.getD "0").toInt?).getD 0
  else 0

/-- The cooldown reason string `error_detail or f"HTTP {r.status_code}"`. -/
def cooldownReason (r : Response) : String :=
  if error_detail r == "" then "HTTP " ++ toString r.status else error_detail r

/-- The observable outcome of one `_safe_get` call: its return value, the
cooldown dict it leaves behind, how many attempts it consumed, the sleeps it
performed (in order), and the clock value when it returns (time advances only
during sleeps in this model). -/
structure FetchState where
  result : Option Response
  cooldowns : CooldownMap
  attempts : Nat
  sleeps : List ℚ
  endTime : ℚ
deriving DecidableEq

/-- The `for attempt in range(4)` loop of `PArt._safe_get` (p_art.py lines
452-508), with `fuel` remaining iterations and `attempt` the current index.
`pn` is `self._provider_hosts.get(host)` for the URL's host, `outcomes`
gives each attempt's HTTP outcome and `jit` each attempt's `random.random()`
draw.  An exception attempt falls through its `except` clause with no sleep;
the rate-limit and auth branches run only for truthy (status < 400)
responses, abort remaining attempts and register a cooldown; every other
non-200 outcome sleeps `min(max(retry_after, 1) * (1 + 0.25*random()) *
2**attempt, 30)` and retries. -/
def safe_get_loop (pn : Option String) (outcomes : Nat → Outcome) (jit : Nat → ℚ) :
    Nat → Nat → CooldownMap → ℚ → FetchState
  | 0, _, cds, now => ⟨none, cds, 0, [], now⟩
  | fuel + 1, attempt, cds, now =>
    match outcomes attempt with
    | .exc =>
      let st := safe_get_loop pn outcomes jit fuel (attempt + 1) cds now
      { st with attempts := st.attempts + 1 }
    | .resp r =>
      if truthyResp r && r.status == 200 then ⟨some r, cds, 1, [], now⟩
      else if truthyResp r && pn.isSome
          && (r.status == 429 || isRateLimitDetail (toLowerStr (error_detail r))) then
        ⟨none,
         set_provider_cooldown cds (pn.getD "") ((retryAfterHint r : Int) : ℚ)
           (some (cooldownReason r)) now,
         1, [], now⟩
      else if truthyResp r && pn.isSome && (r.status == 401 || r.status == 403) then
        ⟨none,
         set_provider_cooldown cds (pn.getD "") (12 * 3600)
           (some (cooldownReason r)) now,
         1, [], now⟩
      else
        let actual :=
          qmin (((imax (transientRetryAfter r) 1 : Int) : ℚ)
            * (1 + (1/4) * jit attempt) * pow2 attempt) 30
        let st := safe_get_loop pn outcomes jit fuel (attempt + 1) cds (now + actual)
        { st with attempts := st.attempts + 1, sleeps := actual :: st.sleeps }

/-- The `PArt._safe_get`: four attempts starting at index 0.  (The per-host rate
limiter `wait()` preceding the loop is modelled separately by `rlWait`.) -/
def safe_get (pn : Option String) (outcomes : Nat → Outcome) (jit : Nat → ℚ)
    (cds : CooldownMap) (now : ℚ) : FetchState :=
  safe_get_loop pn outcomes jit 4 0 cds now

/-- Claim C3 (divergence witness): a call to a TMDb-host URL all four of whose
attempts receive HTTP 429 with no `Retry-After` header.  The claim (and the
explicit rate-limit branch of `_safe_get` itself, lines 479-490) expects a
30-minute cooldown to be registered after the first 429 and no further
attempts; but a 429 `requests.Response` is *falsy* (`bool(r)` is
`status_code < 400`), so the guard `if r and provider_name:` skips that
branch: the code backs off (1, 2, 4, 8 seconds with zero jitter), consumes
all 4 attempts, registers **no** cooldown, and the cooldown check still
reports off-cooldown afterwards. -/
theorem C3_429_registers_no_cooldown :
    safe_get (some "tmdb") (fun _ => Outcome.resp { status := 429 }) (fun _ => 0) [] 0
      = { result := none, cooldowns := [], attempts := 4,
          sleeps := [1, 2, 4, 8], endTime := 15 }
    ∧ (provider_on_cooldown
        (safe_get (some "tmdb") (fun _ => Outcome.resp { status := 429 })
          (fun _ => 0) [] 0).cooldowns "tmdb" 900).1.1 = false := by
  constructor
  · norm_num [safe_get, safe_get_loop, truthyResp, transientRetryAfter, error_detail,
      qmin, imax, pow2]
  · norm_num [safe_get, safe_get_loop, truthyResp, transientRetryAfter, error_detail,
      qmin, imax, pow2, provider_on_cooldown, cdLookup]

/-- The sleep the claim specifies for a failing attempt: `max(Retry-After, 1)`
(the parsed header value; a missing or unparseable header contributes
nothing) times `(1 + jitter)` times `2**attempt`, capped at 30 seconds. -/
def claimedSleep (retryAfter : Option Int) (jitter : ℚ) (attempt : Nat) : ℚ :=
  min (((imax (retryAfter.getD 0) 1 : Int) : ℚ) * (1 + jitter) * 2 ^ attempt) 30

/-- A concrete run: a network exception, then three HTTP 503 responses, the
first carrying `Retry-After: 10`. -/
def c4Outcomes : Nat → Outcome
  | 0 => Outcome.exc
  | 1 => Outcome.resp { status := 503, retryAfter := some "10" }
  | _ => Outcome.resp { status := 503 }

/-- Claim C4 counterexample: on the run `c4Outcomes` with zero jitter the claim
predicts one sleep per failing attempt, namely `[1, 20, 4, 8]` (the 503 with
`Retry-After: 10` contributing a base of 10).  The code performs only three
sleeps, `[2, 4, 8]`: the exception clause retries immediately without
sleeping, and the `Retry-After` parse is guarded by `if r and ...`, which is
false for every failing (status >= 400) response, so the base is always 1. -/
theorem C4_counterexample :
    (safe_get (some "tmdb") c4Outcomes (fun _ => 0) [] 0).sleeps = [2, 4, 8]
    ∧ (safe_get (some "tmdb") c4Outcomes (fun _ => 0) [] 0).attempts = 4
    ∧ (safe_get (some "tmdb") c4Outcomes (fun _ => 0) [] 0).result = none
    ∧ [claimedSleep none 0 0, claimedSleep (some 10) 0 1, claimedSleep none 0 2,
       claimedSleep none 0 3] = ([1, 20, 4, 8] : List ℚ)
    ∧ ([2, 4, 8] : List ℚ) ≠ [1, 20, 4, 8] := by
  refine ⟨?_, ?_, ?_, ?_, ?_⟩ <;>
    norm_num [safe_get, safe_get_loop, c4Outcomes, truthyResp, transientRetryAfter,
      error_detail, qmin, imax, pow2, claimedSleep]

theorem qmin_eq_min (a b : ℚ) : qmin a b = min a b := by
  unfold qmin
  rw [min_def]

theorem pow2_eq (n : Nat) : pow2 n = 2 ^ n := by
  induction n with
  | zero => simp [pow2]
  | succ k ih =>
    rw [pow2, ih, pow_succ]
    ring

theorem safe_get_loop_attempts_le (pn : Option String) (outcomes : Nat → Outcome)
    (jit : Nat → ℚ) :
    ∀ (fuel attempt : Nat) (cds : CooldownMap) (now : ℚ),
      (safe_get_loop pn outcomes jit fuel attempt cds now).attempts ≤ fuel := by
  intro fuel
  induction fuel with
  | zero => intro attempt cds now; simp [safe_get_loop]
  | succ k ih =>
    intro attempt cds now
    cases ho : outcomes attempt with
    | exc =>
      simp only [safe_get_loop, ho]
      exact Nat.succ_le_succ (ih _ _ _)
    | resp r =>
      simp only [safe_get_loop, ho]
      split
      · simp
      · split
        · simp
        · split
          · simp
          · simp only []
            exact Nat.succ_le_succ (ih _ _ _)

theorem safe_get_loop_allfail (pn : Option String) (outcomes : Nat → Outcome)
    (jit : Nat → ℚ) :
    ∀ (fuel attempt : Nat) (cds : CooldownMap) (now : ℚ),
      (∀ a, attempt ≤ a → a < attempt + fuel →
        ∀ r, outcomes a = Outcome.resp r → 400 ≤ r.status) →
      (safe_get_loop pn outcomes jit fuel attempt cds now).result = none
      ∧ (safe_get_loop pn outcomes jit fuel attempt cds now).attempts = fuel
      ∧ (safe_get_loop pn outcomes jit fuel attempt cds now).cooldowns = cds
      ∧ (safe_get_loop pn outcomes jit fuel attempt cds now).sleeps
        = (List.range' attempt fuel).filterMap (fun a =>
            match outcomes a with
            | Outcome.exc => none
            | Outcome.resp _ => some (min ((1 + jit a / 4) * 2 ^ a) 30)) := by
  intro fuel
  induction fuel with
  | zero => intro attempt cds now _; simp [safe_get_loop]
  | succ k ih =>
    intro attempt cds now h
    have hrange : List.range' attempt (k + 1) = attempt :: List.range' (attempt + 1) k :=
      List.range'_succ attempt k 1
    cases ho : outcomes attempt with
    | exc =>
      have ihh := ih (attempt + 1) cds now
        (fun a ha1 ha2 => h a (by omega) (by omega))
      simp only [safe_get_loop, ho]
      refine ⟨ihh.1, by rw [ihh.2.1], ihh.2.2.1, ?_⟩
      rw [hrange]
      simp only [List.filterMap_cons, ho]
      exact ihh.2.2.2
    | resp r =>
      have hr : 400 ≤ r.status := h attempt (le_refl _) (by omega) r ho
      have htr : truthyResp r = false := by
        simp only [truthyResp, decide_eq_false_iff_not, not_lt]
        omega
      have hra : transientRetryAfter r = 0 := by
        simp [transientRetryAfter, htr]
      have hsleep : qmin (((imax (transientRetryAfter r) 1 : Int) : ℚ)
          * (1 + (1/4) * jit attempt) * pow2 attempt) 30
          = min ((1 + jit attempt / 4) * 2 ^ attempt) 30 := by
        rw [hra, qmin_eq_min, pow2_eq]
        rw [show imax 0 1 = (1 : Int) from rfl]
        congr 1
        push_cast
        ring
      have ihh := ih (attempt + 1) cds
        (now + qmin (((imax (transientRetryAfter r) 1 : Int) : ℚ)
          * (1 + (1/4) * jit attempt) * pow2 attempt) 30)
        (fun a ha1 ha2 => h a (by omega) (by omega))
      simp only [safe_get_loop, ho, htr, Bool.false_and, Bool.false_eq_true, if_false]
      refine ⟨ihh.1, by rw [ihh.2.1], ihh.2.2.1, ?_⟩
      rw [hrange]
      simp only [List.filterMap_cons, ho]
      rw [ihh.2.2.2, hsleep]

/-- Claim C4 amended: every `_safe_get` call makes at most 4 attempts; on a run
whose attempts all fail with HTTP status >= 400 or a network/timeout
exception, it returns failure after exactly 4 attempts, registers no
cooldown, and sleeps only after attempts that received an HTTP *response*
— sleeping `min(max(retry_after, 1) * (1 + 0.25*jitter) * 2**attempt, 30)`
where `retry_after` is always 0 for such responses (the `Retry-After` parse
is unreachable for failing statuses), i.e. `min((1 + jitter/4)*2**attempt,
30)` — and an attempt that raised an exception is retried immediately with
no sleep. -/
theorem C4_retry_backoff_amended :
    (∀ (pn : Option String) (outcomes : Nat → Outcome) (jit : Nat → ℚ)
       (cds : CooldownMap) (now : ℚ),
        (safe_get pn outcomes jit cds now).attempts ≤ 4)
    ∧ (∀ (pn : Option String) (outcomes : Nat → Outcome) (jit : Nat → ℚ)
         (cds : CooldownMap) (now : ℚ),
        (∀ a, a < 4 → ∀ r, outcomes a = Outcome.resp r → 400 ≤ r.status) →
        (safe_get pn outcomes jit cds now).result = none
        ∧ (safe_get pn outcomes jit cds now).attempts = 4
        ∧ (safe_get pn outcomes jit cds now).cooldowns = cds
        ∧ (safe_get pn outcomes jit cds now).sleeps
          = (List.range 4).filterMap (fun a =>
              match outcomes a with
              | Outcome.exc => none
              | Outcome.resp _ => some (min ((1 + jit a / 4) * 2 ^ a) 30))) := by
  constructor
  · intro pn outcomes jit cds now
    exact safe_get_loop_attempts_le pn outcomes jit 4 0 cds now
  · intro pn outcomes jit cds now h
    have key := safe_get_loop_allfail pn outcomes jit 4 0 cds now
      (fun a ha1 ha2 => h a (by omega))
    rw [List.range_eq_range']
    exact key

/-- Witness for C4's amended theorem: instantiated on the concrete run
`c4Outcomes` (one exception, three 503s) with zero jitter. -/
theorem C4_retry_backoff_amended_witness :
    (safe_get (some "tmdb") c4Outcomes (fun _ => 0) [] 0).result = none
    ∧ (safe_get (some "tmdb") c4Outcomes (fun _ => 0) [] 0).attempts = 4
    ∧ (safe_get (some "tmdb") c4Outcomes (fun _ => 0) [] 0).cooldowns = []
    ∧ (safe_get (some "tmdb") c4Outcomes (fun _ => 0) [] 0).sleeps
      = (List.range 4).filterMap (fun a =>
          match c4Outcomes a with
          | Outcome.exc => none
          | Outcome.resp _ => some (min ((1 + (fun _ => (0:ℚ)) a / 4) * 2 ^ a) 30)) :=
  C4_retry_backoff_amended.2 (some "tmdb") c4Outcomes (fun _ => 0) [] 0
    (by
      intro a ha r hr
      match a, hr with
      | 1, hr => cases hr; decide
      | 2, hr => cases hr; decide
      | 3, hr => cases hr; decide
      | (n+4), hr => cases hr; decide)

/-- The provider cache (`Cache` in p_art.py, lines 64-91): a two-level JSON
dict, here keyed by `(namespace, key)`.  The key may be `None` (Python
`dict.get(None)` simply finds nothing, since only string keys are ever
stored).  Stored values are `ArtResult.__dict__` snapshots, reconstructed on
read with `ArtResult(**cached)`; a stored dict always has all three fields,
so the truthiness test `if cached:` is equivalent to presence. -/
abbrev CacheMap := List ((String × Option String) × ArtResult)

/-- The `Cache.get(namespace, key)`. -/
def cache_get (c : CacheMap) (ns : String) (key : Option String) : Option ArtResult :=
  match c.find? (fun e => e.1.1 == ns && e.1.2 == key) with
  | some e => some e.2
  | none => none

/-- The `Cache.set(namespace, key, value)`. -/
def cache_set : CacheMap → String → Option String → ArtResult → CacheMap
  | [], ns, key, v => [((ns, key), v)]
  | e :: rest, ns, key, v =>
    if e.1.1 == ns && e.1.2 == key then ((ns, key), v) :: rest
    else e :: cache_set rest ns key v

/-- A media item as the adapters see it: its Plex type and its resolved
external ids.  `ids` stands for the result of
`PArt._resolve_external_ids(item)` (p_art.py lines 510-536), which unions the
`tmdb`/`tvdb`/`imdb` ids regex-extracted from the item's guid strings; the
adapters only consume that mapping. -/
structure Item where
  type : String
  ids : List (String × String)

/-- The `ids.get(k)` on the resolved id mapping. -/
def idGet (ids : List (String × String)) (k : String) : Option String :=
  match ids.find? (fun e => e.1 == k) with
  | some e => some e.2
  | none => none

/-- What an adapter call returns, together with the cache it leaves behind and
the number of network fetches (`_safe_get` calls) it issued. -/
structure AdapterOut where
  res : ArtResult
  cache : CacheMap
  fetches : Nat

/-- One entry of TMDb's `posters`/`backdrops` arrays. -/
structure TMDbImage where
  file_path : Option String := none
  width : Option Int := none
deriving Repr, DecidableEq

/-- The JSON body of a TMDb images response (`data.get("posters", [])`,
`data.get("backdrops", [])`). -/
structure TMDbData where
  posters : List TMDbImage := []
  backdrops : List TMDbImage := []
deriving Repr, DecidableEq

/-- The `movie_tmdb_id = ids.get("tmdb") if item.type == "movie" else None`. -/
def tmdbMovieId (item : Item) : Option String :=
  if item.type == "movie" then idGet item.ids "tmdb" else none

/-- The `tv_tmdb_id = ids.get("tmdb") if item.type == "show" else None`. -/
def tmdbTvId (item : Item) : Option String :=
  if item.type == "show" then idGet item.ids "tmdb" else none

/-- The `ns = "tmdb_movie" if movie_tmdb_id else "tmdb_tv"`. -/
def tmdbNs (item : Item) : String :=
  if truthyS (tmdbMovieId item) then "tmdb_movie" else "tmdb_tv"

/-- The `key = movie_tmdb_id or tv_tmdb_id`. -/
def tmdbKey (item : Item) : Option String :=
  if truthyS (tmdbMovieId item) then tmdbMovieId item else tmdbTvId item

/-- The `TMDbProvider.get_art` (p_art.py lines 156-204).  `onCooldown` is the
result of `self._check_cooldown("tmdb")`; `fetch` is the decoded JSON of the
images request when `_safe_get` succeeds, `none` when it returns `None`.
(The `include_image_language` request parameter does not affect the modelled
control flow.) -/
def tmdb_get_art (apiKey : Option String) (onCooldown : Bool) (item : Item)
    (cache : CacheMap) (fetch : Option TMDbData) (minPosterW minBackW : Int) :
    AdapterOut :=
  if !truthyS apiKey then ⟨{}, cache, 0⟩
  else if onCooldown then ⟨{}, cache, 0⟩
  else
    match cache_get cache (tmdbNs item) (tmdbKey item) with
    | some cached => ⟨cached, cache, 0⟩
    | none =>
      if truthyS (tmdbMovieId item) || truthyS (tmdbTvId item) then
        match fetch with
        | none => ⟨{}, cache, 1⟩
        | some data =>
          let posters := (data.posters.filter (fun p => truthyS p.file_path)).map
            (fun p => ({ url := some ("https://image.tmdb.org/t/p/original"
                           ++ p.file_path.getD ""),
                         width := some (.i (p.width.getD 0)) } : Img))
          let backdrops := (data.backdrops.filter (fun b => truthyS b.file_path)).map
            (fun b => ({ url := some ("https://image.tmdb.org/t/p/original"
                           ++ b.file_path.getD ""),
                         width := some (.i (b.width.getD 0)) } : Img))
          let res : ArtResult :=
            { poster_url := pickBestImage posters minPosterW,
              background_url := pickBestImage backdrops minBackW,
              source := some "tmdb" }
          ⟨res, cache_set cache (tmdbNs item) (tmdbKey item) res, 1⟩
      else ⟨{}, cache, 0⟩

/-- One entry of a fanart.tv image array: `{url, width}` with the width sent
as a numeric string. -/
structure FanartEntry where
  url : Option String := none
  width : Option String := none
deriving Repr, DecidableEq

/-- The JSON body of a fanart.tv response; each absent key yields `[]` via
`data.get(k, []) or []`. -/
structure FanartData where
  movieposter : List FanartEntry := []
  tvposter : List FanartEntry := []
  moviebackground : List FanartEntry := []
  showbackground : List FanartEntry := []
  tvthumb : List FanartEntry := []
  fanart : List FanartEntry := []
deriving Repr, DecidableEq

/-- The `int(i.get("width", 0))`: an absent width is the int 0; a present width is
a numeric string parsed with `int(...)` (the wire contract sends numeric
strings; a malformed one would raise in Python, modelled here as 0). -/
def fanartWidth (w : Option String) : Int :=
  match w with
  | none => 0
  | some s => (s.toInt?).getD 0

/-- The `ns = "fanart_tv" if tvdb_id else "fanart_movie"`. -/
def fanartNs (item : Item) : String :=
  if truthyS (idGet item.ids "tvdb") then "fanart_tv" else "fanart_movie"

/-- The `key = tvdb_id or tmdb_id`. -/
def fanartKey (item : Item) : Option String :=
  if truthyS (idGet item.ids "tvdb") then idGet item.ids "tvdb"
  else idGet item.ids "tmdb"

/-- The `FanartProvider.get_art` (p_art.py lines 207-247). -/
def fanart_get_art (apiKey : Option String) (onCooldown : Bool) (item : Item)
    (cache : CacheMap) (fetch : Option FanartData) (minPosterW minBackW : Int) :
    AdapterOut :=
  if !truthyS apiKey then ⟨{}, cache, 0⟩
  else if onCooldown then ⟨{}, cache, 0⟩
  else
    match cache_get cache (fanartNs item) (fanartKey item) with
    | some cached => ⟨cached, cache, 0⟩
    | none =>
      if truthyS (idGet item.ids "tvdb") || truthyS (idGet item.ids "tmdb") then
        match fetch with
        | none => ⟨{}, cache, 1⟩
        | some data =>
          let posterSets := data.movieposter ++ data.tvposter
          let bgSets := data.moviebackground ++ data.showbackground
            ++ data.tvthumb ++ data.fanart
          let posters := (posterSets.filter (fun i => truthyS i.url)).map
            (fun i => ({ url := i.url,
                         width := some (.i (fanartWidth i.width)) } : Img))
          let backgrounds := (bgSets.filter (fun i => truthyS i.url)).map
            (fun i => ({ url := i.url,
                         width := some (.i (fanartWidth i.width)) } : Img))
          let res : ArtResult :=
            { poster_url := pickBestImage posters minPosterW,
              background_url := pickBestImage backgrounds minBackW,
              source := some "fanart" }
          ⟨res, cache_set cache (fanartNs item) (fanartKey item) res, 1⟩
      else ⟨{}, cache, 0⟩

/-- The JSON body of an OMDb response: its `Poster` field. -/
structure OMDbData where
  poster : Option String := none
deriving Repr, DecidableEq

/-- The `OMDbProvider.get_art` (p_art.py lines 250-281): poster only, requires an
IMDb id; the literal `"N/A"` means no poster. -/
def omdb_get_art (apiKey : Option String) (onCooldown : Bool) (item : Item)
    (cache : CacheMap) (fetch : Option OMDbData) : AdapterOut :=
  if !truthyS apiKey then ⟨{}, cache, 0⟩
  else if onCooldown then ⟨{}, cache, 0⟩
  else
    let imdbId := idGet item.ids "imdb"
    if !truthyS imdbId then ⟨{}, cache, 0⟩
    else
      match cache_get cache "omdb" imdbId with
      | some cached => ⟨cached, cache, 0⟩
      | none =>
        match fetch with
        | none => ⟨{}, cache, 1⟩
        | some js =>
          let res : ArtResult :=
            { poster_url :=
                if truthyS js.poster && !(js.poster == some "N/A") then js.poster
                else none,
              background_url := none,
              source := some "omdb" }
          ⟨res, cache_set cache "omdb" imdbId res, 1⟩

/-- One entry of a TVDb images-query response: `fileName` is accessed with
`p["fileName"]` (the wire contract guarantees it), `resolution` is a
`"WxH"` string defaulting to `"0x0"`. -/
structure TVDbEntry where
  fileName : String
  resolution : Option String := none
deriving Repr, DecidableEq

/-- The JSON body of a TVDb images query: the `data` array if the key is
present (`if "data" in data:`). -/
structure TVDbData where
  data : Option (List TVDbEntry) := none
deriving Repr, DecidableEq

/-- The `p.get("resolution", "0x0").split("x")[0]`: the left component, kept as a
string (it is parsed later inside `_pick_best_image`). -/
def tvdbResolutionWidth (resolution : Option String) : String :=
  ((resolution.getD "0x0").splitOn "x").headD ""

/-- The `TVDbProvider.get_art` (p_art.py lines 284-331): requires an API key and a
show item, then a TVDb id; two sequential images queries (`keyType=poster`,
then `keyType=fanart`), each aborting with an entirely empty result when its
`_safe_get` fails. -/
def tvdb_get_art (apiKey : Option String) (onCooldown : Bool) (item : Item)
    (cache : CacheMap) (fetch1 fetch2 : Option TVDbData) (minPosterW minBackW : Int) :
    AdapterOut :=
  if !truthyS apiKey || !(item.type == "show") then ⟨{}, cache, 0⟩
  else if onCooldown then ⟨{}, cache, 0⟩
  else
    let tvdbId := idGet item.ids "tvdb"
    if !truthyS tvdbId then ⟨{}, cache, 0⟩
    else
      match cache_get cache "tvdb" tvdbId with
      | some cached => ⟨cached, cache, 0⟩
      | none =>
        match fetch1 with
        | none => ⟨{}, cache, 1⟩
        | some d1 =>
          let posters := (d1.data.getD []).map
            (fun p => ({ url := some ("https://api.thetvdb.com/banners/" ++ p.fileName),
                         width := some (.s (tvdbResolutionWidth p.resolution)) } : Img))
          match fetch2 with
          | none => ⟨{}, cache, 2⟩
          | some d2 =>
            let backgrounds := (d2.data.getD []).map
              (fun b => ({ url := some ("https://api.thetvdb.com/banners/" ++ b.fileName),
                           width := some (.s (tvdbResolutionWidth b.resolution)) } : Img))
            let res : ArtResult :=
              { poster_url := pickBestImage posters minPosterW,
                background_url := pickBestImage backgrounds minBackW,
                source := some "tvdb" }
            ⟨res, cache_set cache "tvdb" tvdbId res, 2⟩

/-- Claim C5: for a show item with a TVDb id, an API key configured, the
provider off cooldown and no cache entry, if either of the TVDb adapter's two
sequential sub-queries fails then `get_art` returns an entirely empty
`ArtResult` — even when the poster sub-query (fetch1) had already
succeeded. -/
theorem C5_tvdb_failure_voids_result
    (apiKey : Option String) (item : Item) (cache : CacheMap)
    (fetch1 fetch2 : Option TVDbData) (minP minB : Int)
    (hkey : truthyS apiKey = true)
    (hshow : item.type = "show")
    (hid : truthyS (idGet item.ids "tvdb") = true)
    (hmiss : cache_get cache "tvdb" (idGet item.ids "tvdb") = none)
    (hfail : fetch1 = none ∨ fetch2 = none) :
    (tvdb_get_art apiKey false item cache fetch1 fetch2 minP minB).res
      = ArtResult.empty := by
  unfold tvdb_get_art
  rcases hfail with h1 | h2
  · subst h1
    simp [hkey, hshow, hid, hmiss, ArtResult.empty]
  · subst h2
    cases fetch1 with
    | none => simp [hkey, hshow, hid, hmiss, ArtResult.empty]
    | some d1 => simp [hkey, hshow, hid, hmiss, ArtResult.empty]

/-- Witness for C5: key configured, show item with TVDb id 123, empty cache,
poster sub-query succeeded with one candidate, background sub-query failed —
the result is entirely empty. -/
theorem C5_tvdb_failure_voids_result_witness :
    (tvdb_get_art (some "k") false { type := "show", ids := [("tvdb", "123")] } []
        (some { data := some [{ fileName := "poster.jpg",
                                resolution := some "1000x1500" }] })
        none 600 1920).res = ArtResult.empty :=
  C5_tvdb_failure_voids_result (some "k")
    { type := "show", ids := [("tvdb", "123")] } []
    (some { data := some [{ fileName := "poster.jpg", resolution := some "1000x1500" }] })
    none 600 1920 (by decide) rfl (by decide) rfl (Or.inr rfl)

/-- Claim C7: for every provider adapter, a cache hit at the computed
`(namespace, key)` returns the cached `ArtResult` unchanged filed under
exactly that namespace and key, leaves the cache as it was, and issues zero
network fetches. -/
theorem C7_cache_hit_returns_cached_no_fetch :
    (∀ (apiKey : Option String) (item : Item) (cache : CacheMap)
       (fetch : Option TMDbData) (minP minB : Int) (e : ArtResult),
        truthyS apiKey = true →
        cache_get cache (tmdbNs item) (tmdbKey item) = some e →
        tmdb_get_art apiKey false item cache fetch minP minB = ⟨e, cache, 0⟩)
    ∧ (∀ (apiKey : Option String) (item : Item) (cache : CacheMap)
         (fetch : Option FanartData) (minP minB : Int) (e : ArtResult),
        truthyS apiKey = true →
        cache_get cache (fanartNs item) (fanartKey item) = some e →
        fanart_get_art apiKey false item cache fetch minP minB = ⟨e, cache, 0⟩)
    ∧ (∀ (apiKey : Option String) (item : Item) (cache : CacheMap)
         (fetch : Option OMDbData) (e : ArtResult),
        truthyS apiKey = true →
        truthyS (idGet item.ids "imdb") = true →
        cache_get cache "omdb" (idGet item.ids "imdb") = some e →
        omdb_get_art apiKey false item cache fetch = ⟨e, cache, 0⟩)
    ∧ (∀ (apiKey : Option String) (item : Item) (cache : CacheMap)
         (fetch1 fetch2 : Option TVDbData) (minP minB : Int) (e : ArtResult),
        truthyS apiKey = true →
        item.type = "show" →
        truthyS (idGet item.ids "tvdb") = true →
        cache_get cache "tvdb" (idGet item.ids "tvdb") = some e →
        tvdb_get_art apiKey false item cache fetch1 fetch2 minP minB = ⟨e, cache, 0⟩) := by
  refine ⟨?_, ?_, ?_, ?_⟩
  · intro apiKey item cache fetch minP minB e hkey hhit
    unfold tmdb_get_art
    simp [hkey, hhit]
  · intro apiKey item cache fetch minP minB e hkey hhit
    unfold fanart_get_art
    simp [hkey, hhit]
  · intro apiKey item cache fetch e hkey hid hhit
    unfold omdb_get_art
    simp [hkey, hid, hhit]
  · intro apiKey item cache fetch1 fetch2 minP minB e hkey hshow hid hhit
    unfold tvdb_get_art
    simp [hkey, hshow, hid, hhit]

/-- Witness for C7, including the spec's concrete scenario: a cache
pre-populated for TMDb movie id "550" with poster "U1" makes the TMDb adapter
return that poster with zero fetches; analogous concrete hits for the other
three adapters. -/
theorem C7_cache_hit_returns_cached_no_fetch_witness :
    tmdb_get_art (some "k") false { type := "movie", ids := [("tmdb", "550")] }
        [(("tmdb_movie", some "550"), { poster_url := some "U1" })] none 600 1920
      = ⟨{ poster_url := some "U1" },
         [(("tmdb_movie", some "550"), { poster_url := some "U1" })], 0⟩
    ∧ fanart_get_art (some "k") false { type := "movie", ids := [("tmdb", "77")] }
        [(("fanart_movie", some "77"), { background_url := some "B1" })] none 600 1920
      = ⟨{ background_url := some "B1" },
         [(("fanart_movie", some "77"), { background_url := some "B1" })], 0⟩
    ∧ omdb_get_art (some "k") false { type := "movie", ids := [("imdb", "tt1")] }
        [(("omdb", some "tt1"), { poster_url := some "P1" })] none
      = ⟨{ poster_url := some "P1" },
         [(("omdb", some "tt1"), { poster_url := some "P1" })], 0⟩
    ∧ tvdb_get_art (some "k") false { type := "show", ids := [("tvdb", "42")] }
        [(("tvdb", some "42"), { poster_url := some "T1" })] none none 600 1920
      = ⟨{ poster_url := some "T1" },
         [(("tvdb", some "42"), { poster_url := some "T1" })], 0⟩ :=
  ⟨C7_cache_hit_returns_cached_no_fetch.1 (some "k")
      { type := "movie", ids := [("tmdb", "550")] } _ none 600 1920
      { poster_url := some "U1" } (by decide) (by decide),
   C7_cache_hit_returns_cached_no_fetch.2.1 (some "k")
      { type := "movie", ids := [("tmdb", "77")] } _ none 600 1920
      { background_url := some "B1" } (by decide) (by decide),
   C7_cache_hit_returns_cached_no_fetch.2.2.1 (some "k")
      { type := "movie", ids := [("imdb", "tt1")] } _ none
      { poster_url := some "P1" } (by decide) (by decide) (by decide),
   C7_cache_hit_returns_cached_no_fetch.2.2.2 (some "k")
      { type := "show", ids := [("tvdb", "42")] } _ none none 600 1920
      { poster_url := some "T1" } (by decide) rfl (by decide) (by decide)⟩

/-- Claim C10: for every provider adapter, when the (cache-missed) network fetch
fails, `get_art` returns an empty `ArtResult` and leaves the cache exactly as
it was — fetch failures are never memoized. -/
theorem C10_fetch_failure_writes_nothing :
    (∀ (apiKey : Option String) (item : Item) (cache : CacheMap) (minP minB : Int),
        truthyS apiKey = true →
        (truthyS (tmdbMovieId item) || truthyS (tmdbTvId item)) = true →
        cache_get cache (tmdbNs item) (tmdbKey item) = none →
        tmdb_get_art apiKey false item cache none minP minB
          = ⟨ArtResult.empty, cache, 1⟩)
    ∧ (∀ (apiKey : Option String) (item : Item) (cache : CacheMap) (minP minB : Int),
        truthyS apiKey = true →
        (truthyS (idGet item.ids "tvdb") || truthyS (idGet item.ids "tmdb")) = true →
        cache_get cache (fanartNs item) (fanartKey item) = none →
        fanart_get_art apiKey false item cache none minP minB
          = ⟨ArtResult.empty, cache, 1⟩)
    ∧ (∀ (apiKey : Option String) (item : Item) (cache : CacheMap),
        truthyS apiKey = true →
        truthyS (idGet item.ids "imdb") = true →
        cache_get cache "omdb" (idGet item.ids "imdb") = none →
        omdb_get_art apiKey false item cache none = ⟨ArtResult.empty, cache, 1⟩)
    ∧ (∀ (apiKey : Option String) (item : Item) (cache : CacheMap)
         (fetch1 fetch2 : Option TVDbData) (minP minB : Int),
        truthyS apiKey = true →
        item.type = "show" →
        truthyS (idGet item.ids "tvdb") = true →
        cache_get cache "tvdb" (idGet item.ids "tvdb") = none →
        fetch1 = none ∨ fetch2 = none →
        (tvdb_get_art apiKey false item cache fetch1 fetch2 minP minB).res
            = ArtResult.empty
        ∧ (tvdb_get_art apiKey false item cache fetch1 fetch2 minP minB).cache
            = cache) := by
  refine ⟨?_, ?_, ?_, ?_⟩
  · intro apiKey item cache minP minB hkey hid hmiss
    unfold tmdb_get_art
    simp [hkey, hid, hmiss, ArtResult.empty]
  · intro apiKey item cache minP minB hkey hid hmiss
    unfold fanart_get_art
    simp [hkey, hid, hmiss, ArtResult.empty]
  · intro apiKey item cache hkey hid hmiss
    unfold omdb_get_art
    simp [hkey, hid, hmiss, ArtResult.empty]
  · intro apiKey item cache fetch1 fetch2 minP minB hkey hshow hid hmiss hfail
    unfold tvdb_get_art
    rcases hfail with h1 | h2
    · subst h1
      simp [hkey, hshow, hid, hmiss, ArtResult.empty]
    · subst h2
      cases fetch1 with
      | none => simp [hkey, hshow, hid, hmiss, ArtResult.empty]
      | some d1 => simp [hkey, hshow, hid, hmiss, ArtResult.empty]

/-- Witness for C10: each adapter, on a cache miss with the fetch failing,
returns empty and leaves the (empty) cache untouched. -/
theorem C10_fetch_failure_writes_nothing_witness :
    tmdb_get_art (some "k") false { type := "movie", ids := [("tmdb", "550")] } []
        none 600 1920 = ⟨ArtResult.empty, [], 1⟩
    ∧ fanart_get_art (some "k") false { type := "movie", ids := [("tmdb", "77")] } []
        none 600 1920 = ⟨ArtResult.empty, [], 1⟩
    ∧ omdb_get_art (some "k") false { type := "movie", ids := [("imdb", "tt1")] } []
        none = ⟨ArtResult.empty, [], 1⟩
    ∧ (tvdb_get_art (some "k") false { type := "show", ids := [("tvdb", "42")] } []
        (some { data := some [] }) none 600 1920).res = ArtResult.empty
    ∧ (tvdb_get_art (some "k") false { type := "show", ids := [("tvdb", "42")] } []
        (some { data := some [] }) none 600 1920).cache = [] :=
  ⟨C10_fetch_failure_writes_nothing.1 (some "k")
      { type := "movie", ids := [("tmdb", "550")] } [] 600 1920
      (by decide) (by decide) rfl,
   C10_fetch_failure_writes_nothing.2.1 (some "k")
      { type := "movie", ids := [("tmdb", "77")] } [] 600 1920
      (by decide) (by decide) rfl,
   C10_fetch_failure_writes_nothing.2.2.1 (some "k")
      { type := "movie", ids := [("imdb", "tt1")] } []
      (by decide) (by decide) rfl,
   (C10_fetch_failure_writes_nothing.2.2.2 (some "k")
      { type := "show", ids := [("tvdb", "42")] } []
      (some { data := some [] }) none 600 1920
      (by decide) rfl (by decide) rfl (Or.inr rfl)).1,
   (C10_fetch_failure_writes_nothing.2.2.2 (some "k")
      { type := "show", ids := [("tvdb", "42")] } []
      (some { data := some [] }) none 600 1920
      (by decide) rfl (by decide) rfl (Or.inr rfl)).2⟩

/-- Python `max` on numbers (rationals). -/
def qmax (a b : ℚ) : ℚ := if a ≤ b then b else a

/-- The `RateLimiter.__init__` (p_art.py lines 50-54): the interval is
`1.0 / max(rate_per_sec, 0.001)`. -/
def rlInterval (rate : ℚ) : ℚ := 1 / qmax rate (1/1000)

/-- The `RateLimiter` state: its fixed interval and the tracked `self._next`
("next eligible time", initially `0.0`). -/
structure RateLimiterState where
  interval : ℚ
  nextSlot : ℚ
deriving DecidableEq

/-- The `RateLimiter.wait()` (p_art.py lines 56-61), executed under the lock:
reads `now`, sleeps `self._next - now` if `now < self._next` (sleeps are
exact in this model, so the call returns — is "granted" — at
`max(now, self._next)`), then sets `self._next = max(now, self._next) +
self.interval`.  Returns the grant time and the new state. -/
def rlWait (st : RateLimiterState) (now : ℚ) : ℚ × RateLimiterState :=
  let grant := if now < st.nextSlot then st.nextSlot else now
  (grant, ⟨st.interval, grant + st.interval⟩)

/-- The grant times of a serialized sequence of `wait()` calls (the lock
serializes concurrent callers; `arrivals` are the `time.time()` values each
call reads once it holds the lock). -/
def rlGrants (interval : ℚ) : ℚ → List ℚ → List ℚ
  | _, [] => []
  | nextSlot, now :: rest =>
    let r := rlWait ⟨interval, nextSlot⟩ now
    r.1 :: rlGrants interval r.2.nextSlot rest

/-- The property the claim states: grants at rate `r` are at least `1/r`
apart. -/
def claimGapsOk (r : ℚ) (grants : List ℚ) : Prop :=
  List.Chain' (fun a b => a + 1 / r ≤ b) grants

instance (r : ℚ) (grants : List ℚ) : Decidable (claimGapsOk r grants) := by
  unfold claimGapsOk
  infer_instance

/-- Claim C8 counterexample: a `RateLimiter` configured at rate `1/10000`
requests per second.  The claim demands successive grants at least 10000
seconds apart, but the constructor clamps the rate to at least `0.001`, so
the interval is only 1000 seconds: two calls arriving at time 0 are granted
at 0 and 1000. -/
theorem C8_counterexample :
    rlGrants (rlInterval (1/10000)) 0 [0, 0] = [0, 1000]
    ∧ ¬ claimGapsOk (1/10000) (rlGrants (rlInterval (1/10000)) 0 [0, 0]) := by
  have h : rlGrants (rlInterval (1/10000)) 0 [0, 0] = [0, 1000] := by
    norm_num [rlGrants, rlWait, rlInterval, qmax]
  refine ⟨h, ?_⟩
  rw [h]
  unfold claimGapsOk
  norm_num

theorem rlGrants_chain (interval : ℚ) :
    ∀ (arrivals : List ℚ) (next0 : ℚ),
      List.Chain (fun a b => a + interval ≤ b) (next0 - interval)
        (rlGrants interval next0 arrivals) := by
  intro arrivals
  induction arrivals with
  | nil => intro next0; exact List.Chain.nil
  | cons now rest ih =>
    intro next0
    unfold rlGrants rlWait
    refine List.Chain.cons ?_ ?_
    · by_cases h : now < next0
      · simp [h]
      · simp only [h, if_false]
        push_neg at h
        linarith
    · have := ih ((if now < next0 then next0 else now) + interval)
      have harr : (if now < next0 then next0 else now) + interval - interval
          = (if now < next0 then next0 else now) := by ring
      rw [harr] at this
      exact this

/-- Claim C8 amended: `wait()` grants of a serialized call sequence are never
less than the limiter's *interval* apart, where the interval is
`1 / max(rate, 0.001)` — equal to `1/rate` whenever `rate >= 0.001` (all
configured rates are), but strictly smaller than `1/rate` for rates below
the clamp.  The tracked next-eligible time strictly increases on every call
whenever the interval is positive, and the interval is always positive. -/
theorem C8_rate_limiter_amended :
    (∀ (rate : ℚ) (next0 : ℚ) (arrivals : List ℚ),
        List.Chain' (fun a b => a + rlInterval rate ≤ b)
          (rlGrants (rlInterval rate) next0 arrivals))
    ∧ (∀ (st : RateLimiterState) (now : ℚ),
        0 < st.interval → st.nextSlot < (rlWait st now).2.nextSlot)
    ∧ (∀ rate : ℚ, 1/1000 ≤ rate → rlInterval rate = 1 / rate)
    ∧ (∀ rate : ℚ, 0 < rlInterval rate) := by
  refine ⟨?_, ?_, ?_, ?_⟩
  · intro rate next0 arrivals
    cases hg : rlGrants (rlInterval rate) next0 arrivals with
    | nil => exact List.chain'_nil
    | cons g gs =>
      have hchain := rlGrants_chain (rlInterval rate) arrivals next0
      rw [hg, List.chain_cons] at hchain
      exact hchain.2
  · intro st now hpos
    unfold rlWait
    by_cases h : now < st.nextSlot
    · simp only [h, if_true]
      linarith
    · simp only [h, if_false]
      push_neg at h
      linarith
  · intro rate hr
    unfold rlInterval qmax
    split
    · rename_i h
      rw [le_antisymm h hr]
    · rfl
  · intro rate
    unfold rlInterval qmax
    split
    · norm_num
    · rename_i h
      push_neg at h
      have : (0:ℚ) < rate := by linarith
      positivity

/-- Witness for C8's amended theorem: the TMDb limiter (2 req/s), three calls
arriving at times 0, 0, 10. -/
theorem C8_rate_limiter_amended_witness :
    List.Chain' (fun a b => a + rlInterval 2 ≤ b)
      (rlGrants (rlInterval 2) 0 [0, 0, 10])
    ∧ rlInterval 2 = 1 / 2 :=
  ⟨C8_rate_limiter_amended.1 2 0 [0, 0, 10],
   C8_rate_limiter_amended.2.2.1 2 (by norm_num)⟩

/-- Generic string-keyed dict lookup. -/
def alLookup {β : Type} (l : List (String × β)) (k : String) : Option β :=
  match l.find? (fun e => e.1 == k) with
  | some e => some e.2
  | none => none

/-- Generic string-keyed dict assignment. -/
def alUpdate {β : Type} : List (String × β) → String → β → List (String × β)
  | [], k, v => [(k, v)]
  | e :: rest, k, v => if e.1 == k then (k, v) :: rest else e :: alUpdate rest k v

theorem alLookup_update_self {β : Type} (l : List (String × β)) (k : String) (v : β) :
    alLookup (alUpdate l k v) k = some v := by
  induction l with
  | nil => simp [alUpdate, alLookup, List.find?]
  | cons e rest ih =>
    by_cases he : e.1 == k
    · simp [alUpdate, he, alLookup, List.find?]
    · simp only [alUpdate, he, Bool.false_eq_true, if_false]
      simpa [alLookup, List.find?, he] using ih

theorem alLookup_update_other {β : Type} (l : List (String × β)) (k k2 : String)
    (v : β) (hne : k2 ≠ k) :
    alLookup (alUpdate l k v) k2 = alLookup l k2 := by
  induction l with
  | nil =>
    simp only [alUpdate, alLookup, List.find?]
    have : ((k, v).1 == k2) = false := by
      simp only [beq_eq_false_iff_ne, ne_eq]
      exact fun h => hne h.symm
    simp [this]
  | cons e rest ih =>
    by_cases he : e.1 == k
    · have hek : e.1 = k := by simpa using he
      have hek2 : (e.1 == k2) = false := by
        simp only [beq_eq_false_iff_ne, ne_eq, hek]
        exact fun h => hne h.symm
      have hkk2 : ((k, v).1 == k2) = false := by
        simp only [beq_eq_false_iff_ne, ne_eq]
        exact fun h => hne h.symm
      simp [alUpdate, he, alLookup, List.find?, hkk2, hek2, hek]
    · simp only [alUpdate, he, Bool.false_eq_true, if_false]
      by_cases hek2 : e.1 == k2
      · simp [alLookup, List.find?, hek2]
      · simp only [alLookup, List.find?, hek2]
        exact ih

/-- Civil (proleptic Gregorian) date of a day number counted from the Unix
epoch (1970-01-01 is day 0); the standard days-from-civil inverse used by C
libraries, with floor division. -/
def civilFromDays (z0 : Int) : Int × Int × Int :=
  let z := z0 + 719468
  let era := Int.fdiv z 146097
  let doe := z - era * 146097
  let yoe := Int.fdiv (doe - Int.fdiv doe 1460 + Int.fdiv doe 36524
    - Int.fdiv doe 146096) 365
  let y := yoe + era * 400
  let doy := doe - (365 * yoe + Int.fdiv yoe 4 - Int.fdiv yoe 100)
  let mp := Int.fdiv (5 * doy + 2) 153
  let d := doy - Int.fdiv (153 * mp + 2) 5 + 1
  let m := mp + (if mp < 3 then 3 else -9)
  (y + (if m ≤ 2 then 1 else 0), m, d)

/-- The `%m` / `%d`: two digits, zero-padded. -/
def pad2 (n : Int) : String := if n < 10 then "0" ++ toString n else toString n

/-- The `%Y`: four digits, zero-padded. -/
def pad4 (n : Int) : String :=
  if n < 10 then "000" ++ toString n
  else if n < 100 then "00" ++ toString n
  else if n < 1000 then "0" ++ toString n
  else toString n

/-- The `QuotaTracker._get_date_key` (quota_tracker.py lines 39-41):
`time.strftime("%Y-%m-%d")` formats the **local** broken-down time of the
current clock value.  For a system timezone at a fixed offset `tzOffset`
seconds from UTC, the formatted date is the civil date of
`floor((now + tzOffset) / 86400)` days since the epoch. -/
def get_date_key (now tzOffset : Int) : String :=
  let c := civilFromDays (Int.fdiv (now + tzOffset) 86400)
  pad4 c.1 ++ "-" ++ pad2 c.2.1 ++ "-" ++ pad2 c.2.2

/-- The `QuotaTracker._quotas` store: provider -> (date key -> count). -/
abbrev QuotaMap := List (String × List (String × Int))

/-- The `QuotaTracker.increment` (quota_tracker.py lines 53-61): ensure the
provider and today's date key exist, then add `count`. -/
def increment (q : QuotaMap) (provider : String) (count : Int)
    (now tzOffset : Int) : QuotaMap :=
  let dateKey := get_date_key now tzOffset
  let pdata := (alLookup q provider).getD []
  let cur := (alLookup pdata dateKey).getD 0
  alUpdate q provider (alUpdate pdata dateKey (cur + count))

/-- The `QuotaTracker.get_usage` (quota_tracker.py lines 63-67):
`self._quotas.get(provider, {}).get(date_key, 0)`. -/
def get_usage (q : QuotaMap) (provider : String) (now tzOffset : Int) : Int :=
  ((alLookup q provider).getD [] |> (alLookup · (get_date_key now tzOffset))).getD 0

/-- The `DAILY_QUOTAS` (constants.py lines 87-92): tmdb and omdb have a daily
limit of 1000; fanart and tvdb map to `None` (no limit).  `get_remaining`
treats a provider absent from the dict and a provider mapping to `None`
identically (both return `None`), so the two cases are collapsed here. -/
def DAILY_QUOTAS (provider : String) : Option Int :=
  if provider == "tmdb" then some 1000
  else if provider == "omdb" then some 1000
  else none

/-- The `QuotaTracker.get_remaining` (quota_tracker.py lines 69-79):
`max(0, limit - usage)`, or `None` when unlimited. -/
def get_remaining (q : QuotaMap) (provider : String) (now tzOffset : Int) :
    Option Int :=
  match DAILY_QUOTAS provider with
  | none => none
  | some limit => some (imax 0 (limit - get_usage q provider now tzOffset))

/-- Claim C9 counterexample: with the system timezone at UTC-5
(`tzOffset = -18000`), at 01:00 UTC on epoch day 19000 the date key differs
from the UTC date key; incrementing then and reading usage at 12:00 UTC of
the *same UTC day* finds 0, because the key is the local calendar day, which
rolled over in between.  So the counter is not keyed by the UTC calendar
day. -/
theorem C9_counterexample :
    get_date_key (86400 * 19000 + 3600) (-18000)
      ≠ get_date_key (86400 * 19000 + 3600) 0
    ∧ get_date_key (86400 * 19000 + 3600) 0
      = get_date_key (86400 * 19000 + 43200) 0
    ∧ get_usage (increment [] "tmdb" 1 (86400 * 19000 + 3600) (-18000))
        "tmdb" (86400 * 19000 + 43200) (-18000) = 0 := by
  refine ⟨by decide, by decide, by decide⟩

/-- Claim C9 amended: every QuotaTracker operation keys the per-provider
counter by the **local** calendar day — the formatted civil date of the local
clock `now + tzOffset` — so a count written by `increment` is visible to
`get_usage` (and reflected in `get_remaining`) exactly while the local date
key is unchanged, and the daily count resets at the local date-key rollover
(which coincides with UTC only when the system timezone is UTC). -/
theorem C9_quota_local_day_amended :
    (∀ (t off : Int), get_date_key t off = get_date_key (t + off) 0)
    ∧ (∀ (q : QuotaMap) (p : String) (c t1 t2 off : Int),
        get_usage (increment q p c t1 off) p t2 off
          = if get_date_key t1 off = get_date_key t2 off
            then get_usage q p t2 off + c
            else get_usage q p t2 off)
    ∧ (∀ (q : QuotaMap) (p : String) (c t1 t2 off limit : Int),
        DAILY_QUOTAS p = some limit →
        get_remaining (increment q p c t1 off) p t2 off
          = some (imax 0 (limit -
              (if get_date_key t1 off = get_date_key t2 off
               then get_usage q p t2 off + c
               else get_usage q p t2 off)))) := by
  have husage : ∀ (q : QuotaMap) (p : String) (c t1 t2 off : Int),
      get_usage (increment q p c t1 off) p t2 off
        = if get_date_key t1 off = get_date_key t2 off
          then get_usage q p t2 off + c
          else get_usage q p t2 off := by
    intro q p c t1 t2 off
    unfold increment get_usage
    rw [alLookup_update_self]
    simp only [Option.getD_some]
    by_cases hk : get_date_key t1 off = get_date_key t2 off
    · rw [if_pos hk, ← hk, alLookup_update_self]
      simp
    · rw [if_neg hk]
      rw [alLookup_update_other _ _ _ _ (fun h => hk h.symm)]
  refine ⟨?_, husage, ?_⟩
  · intro t off
    unfold get_date_key
    rw [Int.add_zero]
  · intro q p c t1 t2 off limit hq
    unfold get_remaining
    rw [hq, husage]

/-- Witness for C9's amended theorem: an increment for tmdb at noon UTC+0 is
visible to a read one hour later (same date key), and the remaining quota
reflects it. -/
theorem C9_quota_local_day_amended_witness :
    get_usage (increment [] "tmdb" 1 (86400 * 19000 + 43200) 0)
        "tmdb" (86400 * 19000 + 46800) 0
      = (if get_date_key (86400 * 19000 + 43200) 0
            = get_date_key (86400 * 19000 + 46800) 0
         then get_usage [] "tmdb" (86400 * 19000 + 46800) 0 + 1
         else get_usage [] "tmdb" (86400 * 19000 + 46800) 0)
    ∧ get_remaining (increment [] "tmdb" 1 (86400 * 19000 + 43200) 0)
        "tmdb" (86400 * 19000 + 46800) 0
      = some (imax 0 (1000 -
          (if get_date_key (86400 * 19000 + 43200) 0
              = get_date_key (86400 * 19000 + 46800) 0
           then get_usage [] "tmdb" (86400 * 19000 + 46800) 0 + 1
           else get_usage [] "tmdb" (86400 * 19000 + 46800) 0))) :=
  ⟨C9_quota_local_day_amended.2.1 [] "tmdb" 1 (86400 * 19000 + 43200)
      (86400 * 19000 + 46800) 0,
   C9_quota_local_day_amended.2.2 [] "tmdb" 1 (86400 * 19000 + 43200)
      (86400 * 19000 + 46800) 0 1000 rfl⟩
